import Mathlib

/-!
Shallow embedding of the rue-emu RV32I interpreter (src/mem.rs, src/cpu.rs).

Machine words (Rust `Xlen = u32`) are modelled as `Nat` values kept below
`2^32` by the wrapping operations; bytes are `Nat` values below `2^8`.
Rust panics (slice out of bounds, overflowing shift under the default
overflow-checked profile, `todo!()`) are modelled as `Option.none`, as are
the `Err` returns of `fetch` and `execute`: either way the run loop stops.
-/

/-- The memory capacity `MEM_LEN` from src/mem.rs (0x1000 bytes). -/
def MEM_LEN : Nat := 4096

/-- Word modulus of the 32-bit machine (`Xlen = u32`). -/
def XMOD : Nat := 4294967296

/-- Flat byte store from src/mem.rs: `raw` gives the byte at each index
(only indices below `MEM_LEN` are ever addressed, via modulo). -/
structure Mem where
  raw : Nat → Nat

/-- `Mem::len`: the constant capacity. -/
def Mem.len (_ : Mem) : Nat := MEM_LEN

/-- `Mem::from_buf`: zero-fill, then `raw[..buf.len()].copy_from_slice(&buf)`.
The slice indexing panics when `buf.len() > MEM_LEN`, modelled as `none`. -/
def Mem.fromBuf (buf : List Nat) : Option Mem :=
  if buf.length ≤ MEM_LEN then
    some ⟨fun a => if a < buf.length then buf.getD a 0 else 0⟩
  else
    none

/-- `Mem::load_byte`: read the byte at `addr % MEM_LEN`. -/
def Mem.loadByte (m : Mem) (addr : Nat) : Nat :=
  m.raw (addr % MEM_LEN)

/-- `Mem::load_half`: two bytes, each index independently mod `MEM_LEN`,
assembled little-endian (`u16::from_le_bytes`). -/
def Mem.loadHalf (m : Mem) (addr : Nat) : Nat :=
  let idx := addr % MEM_LEN
  m.raw idx + 256 * m.raw ((idx + 1) % MEM_LEN)

/-- `Mem::load_word`: four bytes, each index independently mod `MEM_LEN`,
assembled little-endian (`u32::from_le_bytes`). -/
def Mem.loadWord (m : Mem) (addr : Nat) : Nat :=
  let idx := addr % MEM_LEN
  m.raw idx + 256 * m.raw ((idx + 1) % MEM_LEN)
    + 65536 * m.raw ((idx + 2) % MEM_LEN)
    + 16777216 * m.raw ((idx + 3) % MEM_LEN)

/-- `Mem::store_byte`: write the byte at `addr % MEM_LEN`. -/
def Mem.storeByte (m : Mem) (addr v : Nat) : Mem :=
  ⟨fun a => if a = addr % MEM_LEN then v else m.raw a⟩

/-- `Mem::store_half`: `raw[idx..idx + 2].copy_from_slice(&value.to_le_bytes())`.
The contiguous slice does not wrap; it panics (`none`) when `idx + 2 > MEM_LEN`. -/
def Mem.storeHalf (m : Mem) (addr v : Nat) : Option Mem :=
  let idx := addr % MEM_LEN
  if idx + 2 ≤ MEM_LEN then
    some ⟨fun a =>
      if a = idx then v % 256
      else if a = idx + 1 then v / 256 % 256
      else m.raw a⟩
  else
    none

/-- `Mem::store_word`: `raw[idx..idx + 4].copy_from_slice(&value.to_le_bytes())`.
The contiguous slice does not wrap; it panics (`none`) when `idx + 4 > MEM_LEN`. -/
def Mem.storeWord (m : Mem) (addr v : Nat) : Option Mem :=
  let idx := addr % MEM_LEN
  if idx + 4 ≤ MEM_LEN then
    some ⟨fun a =>
      if a = idx then v % 256
      else if a = idx + 1 then v / 256 % 256
      else if a = idx + 2 then v / 65536 % 256
      else if a = idx + 3 then v / 16777216 % 256
      else m.raw a⟩
  else
    none

/-- The all-zero memory image. -/
def zeroMem : Mem := ⟨fun _ => 0⟩

/-- Observation helper: a byte of an optional memory. -/
def byteView (o : Option Mem) (i : Nat) : Option Nat :=
  o.map fun m => m.loadByte i

/-- Observation helper: a word of an optional memory. -/
def wordView (o : Option Mem) (i : Nat) : Option Nat :=
  o.map fun m => m.loadWord i

/-- `u32::wrapping_add`. -/
def wadd (a b : Nat) : Nat := (a + b) % XMOD

/-- `u32::wrapping_sub` (operands are machine words, i.e. below `XMOD`). -/
def wsub (a b : Nat) : Nat := (a + (XMOD - b % XMOD)) % XMOD

/-- Modelled from the spec: instruction alignment constant `IALIGN` of the
missing `shared` crate; the spec (section 3) fixes it to 4 bytes. -/
def IALIGN : Nat := 4

/-- Modelled from the spec: `OPCODE_OP` of the missing `shared` crate, the
standard RV32I R-type opcode (spec sections 1 and 4.2). -/
def OPCODE_OP : Nat := 0x33

/-- Modelled from the spec: `OPCODE_OP_IMM` (standard RV32I). -/
def OPCODE_OP_IMM : Nat := 0x13

/-- Modelled from the spec: `OPCODE_LOAD` (standard RV32I). -/
def OPCODE_LOAD : Nat := 0x03

/-- Modelled from the spec: `OPCODE_STORE` (standard RV32I). -/
def OPCODE_STORE : Nat := 0x23

/-- Modelled from the spec: `OPCODE_BRANCH` (standard RV32I). -/
def OPCODE_BRANCH : Nat := 0x63

/-- Modelled from the spec: `OPCODE_JAL` (standard RV32I). -/
def OPCODE_JAL : Nat := 0x6F

/-- Modelled from the spec: `OPCODE_JALR` (standard RV32I). -/
def OPCODE_JALR : Nat := 0x67

/-- Modelled from the spec: `OPCODE_LUI` (standard RV32I). -/
def OPCODE_LUI : Nat := 0x37

/-- Modelled from the spec: `OPCODE_AUIPC` (standard RV32I). -/
def OPCODE_AUIPC : Nat := 0x17

/-- Modelled from the spec: `OPCODE_FENCE` (standard RV32I). -/
def OPCODE_FENCE : Nat := 0x0F

/-- Modelled from the spec: `OPCODE_SYSTEM` (standard RV32I). -/
def OPCODE_SYSTEM : Nat := 0x73

/-- `instr & MASK_OPCODE`: the low 7 bits (spec section 4.2). -/
def opcodeOf (instr : Nat) : Nat := instr % 128

/-- `(instr & MASK_RD) >> SHIFT_RD`: bits 11..7. -/
def rdOf (instr : Nat) : Nat := instr / 128 % 32

/-- `(instr & MASK_RS1) >> SHIFT_RS1`: bits 19..15. -/
def rs1Of (instr : Nat) : Nat := instr / 32768 % 32

/-- `(instr & MASK_RS2) >> SHIFT_RS2`: bits 24..20. -/
def rs2Of (instr : Nat) : Nat := instr / 1048576 % 32

/-- `(instr & MASK_FUNCT3) >> SHIFT_FUNCT3`: bits 14..12. -/
def funct3Of (instr : Nat) : Nat := instr / 4096 % 8

/-- `(instr & MASK_FUNCT7) >> SHIFT_FUNCT7`: bits 31..25. -/
def funct7Of (instr : Nat) : Nat := instr / 33554432 % 128

/-- Sign extension of a 12-bit value to a 32-bit machine word. -/
def signExtend12 (v : Nat) : Nat :=
  if v < 2048 then v else v + (XMOD - 4096)

/-- `((instr & MASK_I_IMM) as Ixlen >> SHIFT_RS2) as Xlen`: the I-immediate,
bits 31..20 arithmetically shifted down, i.e. sign-extended. -/
def iImm (instr : Nat) : Nat := signExtend12 (instr / 1048576 % 4096)

/-- `(instr & MASK_I_IMM) >> SHIFT_RS2`: the zero-extended I-immediate. -/
def iImmU (instr : Nat) : Nat := instr / 1048576 % 4096

/-- `Cpu::get_s_imm`: sign-extended funct7 field (landing at bits 11..5)
or-ed with the rd field (bits 4..0). -/
def sImm (instr : Nat) : Nat :=
  Nat.lor (signExtend12 (funct7Of instr * 32)) (rdOf instr)

/-- Reinterpret a machine word as a signed 32-bit value (`as Ixlen`). -/
def toSigned (x : Nat) : Int :=
  if x < 2147483648 then (x : Int) else (x : Int) - XMOD

/-- Sign extension of a byte (`as i8 as Ixlen as Xlen`). -/
def sext8 (b : Nat) : Nat :=
  if b < 128 then b else b + (XMOD - 256)

/-- Sign extension of a half-word (`as i16 as Ixlen as Xlen`). -/
def sext16 (h : Nat) : Nat :=
  if h < 32768 then h else h + (XMOD - 65536)

/-- CPU state from src/cpu.rs: register file, program counter, memory. -/
structure Cpu where
  registers : Nat → Nat
  pc : Nat
  mem : Mem

/-- `Cpu::from_mem`: all registers zero, program counter zero. -/
def Cpu.fromMem (mem : Mem) : Cpu :=
  ⟨fun _ => 0, 0, mem⟩

/-- `self.registers[rd] = v` (an unguarded array store: index 0 is written
like any other register). -/
def Cpu.setReg (c : Cpu) (rd v : Nat) : Cpu :=
  { c with registers := fun i => if i = rd then v else c.registers i }

/-- `Cpu::inc_pc`: `pc = pc.wrapping_add(4); pc %= mem.len()`. -/
def Cpu.incPc (c : Cpu) : Cpu :=
  { c with pc := (c.pc + 4) % XMOD % c.mem.len }

/-- `Cpu::fetch`: alignment check against `IALIGN`, then a word load at `pc`. -/
def Cpu.fetch (c : Cpu) : Option Nat :=
  if c.pc % IALIGN = 0 then some (c.mem.loadWord c.pc) else none

/-- `Cpu::add`: `registers[rd] = registers[rs1].wrapping_add(registers[rs2])`. -/
def Cpu.add (c : Cpu) (rd rs1 rs2 : Nat) : Cpu :=
  c.setReg rd (wadd (c.registers rs1) (c.registers rs2))

/-- `Cpu::sub`: wrapping subtraction. -/
def Cpu.sub (c : Cpu) (rd rs1 rs2 : Nat) : Cpu :=
  c.setReg rd (wsub (c.registers rs1) (c.registers rs2))

/-- `Cpu::xor`. -/
def Cpu.xor (c : Cpu) (rd rs1 rs2 : Nat) : Cpu :=
  c.setReg rd (Nat.xor (c.registers rs1) (c.registers rs2))

/-- `Cpu::or`. -/
def Cpu.or (c : Cpu) (rd rs1 rs2 : Nat) : Cpu :=
  c.setReg rd (Nat.lor (c.registers rs1) (c.registers rs2))

/-- `Cpu::and`. -/
def Cpu.and (c : Cpu) (rd rs1 rs2 : Nat) : Cpu :=
  c.setReg rd (Nat.land (c.registers rs1) (c.registers rs2))

/-- `x << y` on `u32` with the full (unmasked) shift amount: an overflowing
shift (amount at least 32) panics under the default overflow-checked
profile, modelled as `none`. -/
def shlChecked (x y : Nat) : Option Nat :=
  if y < 32 then some (x * 2 ^ y % XMOD) else none

/-- `x >> y` on `u32`, overflow-checked like `shlChecked`. -/
def shrChecked (x y : Nat) : Option Nat :=
  if y < 32 then some (x / 2 ^ y) else none

/-- `(x as i32) >> (y as i32)` arithmetic shift, overflow-checked: faults
unless the reinterpreted amount lies in 0..31, i.e. unless `y < 32`. -/
def sraChecked (x y : Nat) : Option Nat :=
  if y < 32 then
    some (if x < 2147483648 then x / 2 ^ y
          else x / 2 ^ y + (XMOD - 2 ^ (32 - y)))
  else none

/-- `Cpu::sll`: `registers[rd] = registers[rs1] << registers[rs2]`. -/
def Cpu.sll (c : Cpu) (rd rs1 rs2 : Nat) : Option Cpu :=
  (shlChecked (c.registers rs1) (c.registers rs2)).map (c.setReg rd)

/-- `Cpu::srl`: logical right shift by the full rs2 value. -/
def Cpu.srl (c : Cpu) (rd rs1 rs2 : Nat) : Option Cpu :=
  (shrChecked (c.registers rs1) (c.registers rs2)).map (c.setReg rd)

/-- `Cpu::sra`: arithmetic right shift by the full rs2 value. -/
def Cpu.sra (c : Cpu) (rd rs1 rs2 : Nat) : Option Cpu :=
  (sraChecked (c.registers rs1) (c.registers rs2)).map (c.setReg rd)

/-- Modelled from the spec: `Cpu::slt` is called by the dispatcher but its
body is missing from src; spec section 4.3 gives signed less-than with a
0-or-1 result. -/
def Cpu.slt (c : Cpu) (rd rs1 rs2 : Nat) : Cpu :=
  c.setReg rd (if toSigned (c.registers rs1) < toSigned (c.registers rs2) then 1 else 0)

/-- Modelled from the spec: `Cpu::sltu`, unsigned less-than (section 4.3). -/
def Cpu.sltu (c : Cpu) (rd rs1 rs2 : Nat) : Cpu :=
  c.setReg rd (if c.registers rs1 < c.registers rs2 then 1 else 0)

/-- `Cpu::addi`: `registers[rd] = registers[rs1].wrapping_add(imm)`. -/
def Cpu.addi (c : Cpu) (rd rs1 imm : Nat) : Cpu :=
  c.setReg rd (wadd (c.registers rs1) imm)

/-- `Cpu::xori`. -/
def Cpu.xori (c : Cpu) (rd rs1 imm : Nat) : Cpu :=
  c.setReg rd (Nat.xor (c.registers rs1) imm)

/-- `Cpu::ori`. -/
def Cpu.ori (c : Cpu) (rd rs1 imm : Nat) : Cpu :=
  c.setReg rd (Nat.lor (c.registers rs1) imm)

/-- `Cpu::andi`. -/
def Cpu.andi (c : Cpu) (rd rs1 imm : Nat) : Cpu :=
  c.setReg rd (Nat.land (c.registers rs1) imm)

/-- Modelled from the spec: `Cpu::slli` is called but missing from src;
spec section 4.3 masks the shift amount to the low 5 bits of the immediate. -/
def Cpu.slli (c : Cpu) (rd rs1 imm : Nat) : Cpu :=
  c.setReg rd (c.registers rs1 * 2 ^ (imm % 32) % XMOD)

/-- Modelled from the spec: `Cpu::srli`, masked logical right shift. -/
def Cpu.srli (c : Cpu) (rd rs1 imm : Nat) : Cpu :=
  c.setReg rd (c.registers rs1 / 2 ^ (imm % 32))

/-- Modelled from the spec: `Cpu::srai`, masked arithmetic right shift. -/
def Cpu.srai (c : Cpu) (rd rs1 imm : Nat) : Cpu :=
  c.setReg rd (if c.registers rs1 < 2147483648 then c.registers rs1 / 2 ^ (imm % 32)
               else c.registers rs1 / 2 ^ (imm % 32) + (XMOD - 2 ^ (32 - imm % 32)))

/-- Modelled from the spec: `Cpu::slti`, signed compare against the
sign-extended immediate (section 4.3). -/
def Cpu.slti (c : Cpu) (rd rs1 imm : Nat) : Cpu :=
  c.setReg rd (if toSigned (c.registers rs1) < toSigned imm then 1 else 0)

/-- Modelled from the spec: `Cpu::sltui`, unsigned compare against the
zero-extended immediate (section 4.3). -/
def Cpu.sltui (c : Cpu) (rd rs1 immu : Nat) : Cpu :=
  c.setReg rd (if c.registers rs1 < immu then 1 else 0)

/-- `Cpu::lb`: sign-extended byte load. -/
def Cpu.lb (c : Cpu) (rd addr : Nat) : Cpu :=
  c.setReg rd (sext8 (c.mem.loadByte addr))

/-- `Cpu::lh`: sign-extended half-word load. -/
def Cpu.lh (c : Cpu) (rd addr : Nat) : Cpu :=
  c.setReg rd (sext16 (c.mem.loadHalf addr))

/-- `Cpu::lw`: word load (`as Ixlen as Xlen` is the identity on words). -/
def Cpu.lw (c : Cpu) (rd addr : Nat) : Cpu :=
  c.setReg rd (c.mem.loadWord addr)

/-- `Cpu::lbu`: zero-extended byte load. -/
def Cpu.lbu (c : Cpu) (rd addr : Nat) : Cpu :=
  c.setReg rd (c.mem.loadByte addr)

/-- `Cpu::lhu`: zero-extended half-word load. -/
def Cpu.lhu (c : Cpu) (rd addr : Nat) : Cpu :=
  c.setReg rd (c.mem.loadHalf addr)

/-- `Cpu::sb`: `mem.store_byte(addr, value as u8)`. -/
def Cpu.sb (c : Cpu) (addr value : Nat) : Cpu :=
  { c with mem := c.mem.storeByte addr (value % 256) }

/-- `Cpu::sh`: `mem.store_half(addr, value as u16)`; may panic (`none`). -/
def Cpu.sh (c : Cpu) (addr value : Nat) : Option Cpu :=
  (c.mem.storeHalf addr (value % 65536)).map fun m => { c with mem := m }

/-- `Cpu::sw`: `mem.store_word(addr, value as u32)`; may panic (`none`). -/
def Cpu.sw (c : Cpu) (addr value : Nat) : Option Cpu :=
  (c.mem.storeWord addr value).map fun m => { c with mem := m }

/-- The ten R-type ALU operations named in the `OPCODE_OP` match arms. -/
inductive AluOp where
  | add | sub | xorOp | orOp | andOp | sll | srl | sra | slt | sltu
deriving DecidableEq, BEq

/-- The `OPCODE_OP` match arms of `Cpu::execute`, in source order, as
(funct3, funct7) keys. The last two rows both carry the key (0x2, 0x00),
exactly as in the source. -/
def opTable : List ((Nat × Nat) × AluOp) :=
  [((0x0, 0x00), .add),
   ((0x0, 0x20), .sub),
   ((0x4, 0x00), .xorOp),
   ((0x6, 0x00), .orOp),
   ((0x7, 0x00), .andOp),
   ((0x1, 0x00), .sll),
   ((0x5, 0x00), .srl),
   ((0x5, 0x20), .sra),
   ((0x2, 0x00), .slt),
   ((0x2, 0x00), .sltu)]

/-- Rust `match` semantics over `opTable`: the first matching arm wins;
no arm is a decode error. -/
def opDispatch (funct3 funct7 : Nat) : Option AluOp :=
  (opTable.find? fun e => e.1 == (funct3, funct7)).map fun e => e.2

/-- Run one R-type ALU operation (`self.add(rd, rs1, rs2)` and friends). -/
def Cpu.applyAlu (c : Cpu) (op : AluOp) (rd rs1 rs2 : Nat) : Option Cpu :=
  match op with
  | .add => some (c.add rd rs1 rs2)
  | .sub => some (c.sub rd rs1 rs2)
  | .xorOp => some (c.xor rd rs1 rs2)
  | .orOp => some (c.or rd rs1 rs2)
  | .andOp => some (c.and rd rs1 rs2)
  | .sll => c.sll rd rs1 rs2
  | .srl => c.srl rd rs1 rs2
  | .sra => c.sra rd rs1 rs2
  | .slt => some (c.slt rd rs1 rs2)
  | .sltu => some (c.sltu rd rs1 rs2)

/-- The `OPCODE_OP_IMM` arm of `Cpu::execute`: a `match` on funct3, with
funct7 side conditions for the shifts. The source `match funct7` under
funct3 = 0x5 has no arm for other funct7 values; that hole is modelled as
a fault. -/
def Cpu.execOpImm (c : Cpu) (rd rs1 funct3 funct7 imm immu : Nat) : Option Cpu :=
  if funct3 = 0x0 then some (c.addi rd rs1 imm)
  else if funct3 = 0x4 then some (c.xori rd rs1 imm)
  else if funct3 = 0x6 then some (c.ori rd rs1 imm)
  else if funct3 = 0x7 then some (c.andi rd rs1 imm)
  else if funct3 = 0x1 then
    if funct7 = 0x00 then some (c.slli rd rs1 imm) else none
  else if funct3 = 0x5 then
    if funct7 = 0x00 then some (c.srli rd rs1 imm)
    else if funct7 = 0x20 then some (c.srai rd rs1 imm)
    else none
  else if funct3 = 0x2 then some (c.slti rd rs1 imm)
  else if funct3 = 0x3 then some (c.sltui rd rs1 immu)
  else none

/-- The `OPCODE_LOAD` arm: effective address, then a width/extension
selected by funct3. -/
def Cpu.execLoad (c : Cpu) (rd rs1 funct3 imm : Nat) : Option Cpu :=
  let addr := wadd (c.registers rs1) imm
  if funct3 = 0x0 then some (c.lb rd addr)
  else if funct3 = 0x1 then some (c.lh rd addr)
  else if funct3 = 0x2 then some (c.lw rd addr)
  else if funct3 = 0x4 then some (c.lbu rd addr)
  else if funct3 = 0x5 then some (c.lhu rd addr)
  else none

/-- The `OPCODE_STORE` arm: effective address from the S-immediate, then a
width selected by funct3. -/
def Cpu.execStore (c : Cpu) (rs1 rs2 funct3 imm : Nat) : Option Cpu :=
  let addr := wadd (c.registers rs1) imm
  let value := c.registers rs2
  if funct3 = 0x0 then some (c.sb addr value)
  else if funct3 = 0x1 then c.sh addr value
  else if funct3 = 0x2 then c.sw addr value
  else none

/-- `Cpu::execute`. The `OPCODE_BRANCH` arm reads uninitialized immediates
and calls `todo!()` stubs and missing methods, so no branch can execute;
it is modelled as a fault. `OPCODE_JAL` through `OPCODE_SYSTEM` are the
source's literal no-op arms `()`. -/
def Cpu.execute (c : Cpu) (instr : Nat) : Option Cpu :=
  let opcode := opcodeOf instr
  let rd := rdOf instr
  let rs1 := rs1Of instr
  let rs2 := rs2Of instr
  let funct3 := funct3Of instr
  let funct7 := funct7Of instr
  if opcode = OPCODE_OP then
    (opDispatch funct3 funct7).bind fun op => c.applyAlu op rd rs1 rs2
  else if opcode = OPCODE_OP_IMM then
    c.execOpImm rd rs1 funct3 funct7 (iImm instr) (iImmU instr)
  else if opcode = OPCODE_LOAD then
    c.execLoad rd rs1 funct3 (iImm instr)
  else if opcode = OPCODE_STORE then
    c.execStore rs1 rs2 funct3 (sImm instr)
  else if opcode = OPCODE_BRANCH then
    none
  else if opcode = OPCODE_JAL then some c
  else if opcode = OPCODE_JALR then some c
  else if opcode = OPCODE_LUI then some c
  else if opcode = OPCODE_AUIPC then some c
  else if opcode = OPCODE_FENCE then some c
  else if opcode = OPCODE_SYSTEM then some c
  else none

/-- One iteration of `Cpu::run`: fetch (break on failure), advance the
program counter, execute (break on failure). -/
def Cpu.step (c : Cpu) : Option Cpu :=
  c.fetch.bind fun instr => c.incPc.execute instr

/-- States reachable by the run loop from an initial state (`Cpu::from_mem`:
registers zero, program counter zero) over any memory image. -/
inductive Reach : Cpu → Prop where
  | init (m : Mem) : Reach (Cpu.fromMem m)
  | step {c c' : Cpu} : Reach c → c.step = some c' → Reach c'

/-- Observation helper: a register of an optional CPU state. -/
def regView (o : Option Cpu) (i : Nat) : Option Nat :=
  o.map fun c => c.registers i

/-- Observation helper: the program counter of an optional CPU state. -/
def pcView (o : Option Cpu) : Option Nat :=
  o.map fun c => c.pc

/-- Observation helper: program counter and register x1 together. -/
def pcX1View (o : Option Cpu) : Option (Nat × Nat) :=
  o.map fun c => (c.pc, c.registers 1)

/-- Execute two instructions in sequence. -/
def exec2 (c : Cpu) (i1 i2 : Nat) : Option Cpu :=
  (c.execute i1).bind fun c2 => c2.execute i2

/-- Execute three instructions in sequence. -/
def exec3 (c : Cpu) (i1 i2 i3 : Nat) : Option Cpu :=
  (exec2 c i1 i2).bind fun c3 => c3.execute i3

/-- The initial CPU over the all-zero memory. -/
def zeroCpu : Cpu := Cpu.fromMem zeroMem

/-- A memory image whose word at address 0 is 0x010000EF, the encoding of
JAL x1, +16. -/
def jalMem : Mem :=
  ⟨fun a => if a = 0 then 0xEF else if a = 3 then 0x01 else 0⟩

/-- Scans every possible (funct3, funct7) key (3-bit and 7-bit fields) for
one that the OP dispatcher resolves to `sltu`. -/
def sltuReachable : Bool :=
  (List.range 8).any fun f3 =>
    (List.range 128).any fun f7 => opDispatch f3 f7 == some AluOp.sltu

/-- A CPU state with x1 = 5 and x2 = 7, used to instantiate theorems. -/
def demoCpu : Cpu := (zeroCpu.setReg 1 5).setReg 2 7

/-- Executing `instr` from `c` leaves register `i` unchanged (whenever it
does not fault). -/
def regUnchanged (c : Cpu) (instr i : Nat) : Prop :=
  (c.execute instr).map (fun c2 => c2.registers i)
    = (c.execute instr).map (fun _ => c.registers i)

/-- Executing `instr` from `c` leaves the memory unchanged (whenever it
does not fault). -/
def memUnchanged (c : Cpu) (instr : Nat) : Prop :=
  (c.execute instr).map (fun c2 => c2.mem)
    = (c.execute instr).map (fun _ => c.mem)

theorem setReg_pc (c : Cpu) (rd v : Nat) : (c.setReg rd v).pc = c.pc := rfl

theorem setReg_mem (c : Cpu) (rd v : Nat) : (c.setReg rd v).mem = c.mem := rfl

theorem setReg_reg_ne (c : Cpu) {rd v i : Nat} (h : i ≠ rd) :
    (c.setReg rd v).registers i = c.registers i := by
  simp [Cpu.setReg, h]

theorem applyAlu_pc {c c2 : Cpu} {op : AluOp} {rd rs1 rs2 : Nat}
    (h : c.applyAlu op rd rs1 rs2 = some c2) : c2.pc = c.pc := by
  cases op <;>
    simp only [Cpu.applyAlu, Cpu.sll, Cpu.srl, Cpu.sra, Option.map_eq_some',
      Option.some.injEq] at h <;>
    first
      | (obtain ⟨a, _, rfl⟩ := h; rfl)
      | (subst h; rfl)

theorem execOpImm_pc {c c2 : Cpu} {rd rs1 funct3 funct7 imm immu : Nat}
    (h : c.execOpImm rd rs1 funct3 funct7 imm immu = some c2) : c2.pc = c.pc := by
  simp only [Cpu.execOpImm] at h
  split_ifs at h <;>
    first
      | (injection h with h2; subst h2; rfl)
      | exact Option.noConfusion h

theorem execLoad_pc {c c2 : Cpu} {rd rs1 funct3 imm : Nat}
    (h : c.execLoad rd rs1 funct3 imm = some c2) : c2.pc = c.pc := by
  simp only [Cpu.execLoad] at h
  split_ifs at h <;>
    first
      | (injection h with h2; subst h2; rfl)
      | exact Option.noConfusion h

theorem execStore_pc {c c2 : Cpu} {rs1 rs2 funct3 imm : Nat}
    (h : c.execStore rs1 rs2 funct3 imm = some c2) : c2.pc = c.pc := by
  simp only [Cpu.execStore, Cpu.sh, Cpu.sw] at h
  split_ifs at h <;>
    first
      | (injection h with h2; subst h2; rfl)
      | (rw [Option.map_eq_some'] at h; obtain ⟨m, _, rfl⟩ := h; rfl)
      | exact Option.noConfusion h

set_option maxHeartbeats 1000000 in
theorem execute_pc {c c2 : Cpu} {instr : Nat}
    (h : c.execute instr = some c2) : c2.pc = c.pc := by
  rw [Cpu.execute] at h
  split_ifs at h
  case pos =>
    rw [Option.bind_eq_some] at h
    obtain ⟨op, _, h2⟩ := h
    exact applyAlu_pc h2
  case pos => exact execOpImm_pc h
  case pos => exact execLoad_pc h
  case pos => exact execStore_pc h
  all_goals
    first
      | (injection h with h2; subst h2; rfl)
      | exact Option.noConfusion h

theorem step_pc {c c' : Cpu} (h : c.step = some c') :
    c'.pc = (c.pc + 4) % XMOD % MEM_LEN := by
  rw [Cpu.step, Option.bind_eq_some] at h
  obtain ⟨instr, _, hex⟩ := h
  exact execute_pc hex

theorem execute_op_eq {c : Cpu} {instr : Nat} (hop : opcodeOf instr = OPCODE_OP) :
    c.execute instr =
      (opDispatch (funct3Of instr) (funct7Of instr)).bind
        fun op => c.applyAlu op (rdOf instr) (rs1Of instr) (rs2Of instr) := by
  simp [Cpu.execute, hop]

theorem execute_opimm_eq {c : Cpu} {instr : Nat}
    (hop : opcodeOf instr = OPCODE_OP_IMM) :
    c.execute instr =
      c.execOpImm (rdOf instr) (rs1Of instr) (funct3Of instr) (funct7Of instr)
        (iImm instr) (iImmU instr) := by
  simp [Cpu.execute, hop, OPCODE_OP, OPCODE_OP_IMM]

theorem applyAlu_frame {c c2 : Cpu} {op : AluOp} {rd rs1 rs2 i : Nat}
    (hi : i ≠ rd) (h : c.applyAlu op rd rs1 rs2 = some c2) :
    c2.registers i = c.registers i ∧ c2.mem = c.mem := by
  cases op <;>
    simp only [Cpu.applyAlu, Cpu.sll, Cpu.srl, Cpu.sra, Option.map_eq_some',
      Option.some.injEq] at h <;>
    first
      | (obtain ⟨a, _, rfl⟩ := h; exact ⟨setReg_reg_ne c hi, rfl⟩)
      | (subst h; exact ⟨setReg_reg_ne c hi, rfl⟩)

theorem execOpImm_frame {c c2 : Cpu} {rd rs1 funct3 funct7 imm immu i : Nat}
    (hi : i ≠ rd) (h : c.execOpImm rd rs1 funct3 funct7 imm immu = some c2) :
    c2.registers i = c.registers i ∧ c2.mem = c.mem := by
  simp only [Cpu.execOpImm] at h
  split_ifs at h <;>
    first
      | (injection h with h2; subst h2; exact ⟨setReg_reg_ne c hi, rfl⟩)
      | exact Option.noConfusion h

/-- Claim C1. Refuting evaluation: the register file does not hardwire
index 0 to zero. Starting from the initial state, ADDI x1, x0, 5
(0x00500093) followed by ADD x0, x1, x1 (0x00108033) leaves the value 10
in register 0, where the claim requires every read of register 0 to
yield 0. -/
theorem x0_write_read_back :
    regView (exec2 zeroCpu 0x00500093 0x00108033) 0 = some 10 := by
  decide

/-- Claim C2. Refuting evaluation: `store_word` does not wrap its
constituent byte addresses; at address 4093 the contiguous slice
`raw[4093..4097]` exceeds the 4096-byte array and the store faults,
where the claim requires every store/load round-trip to succeed. At an
address whose four bytes fit (100), the round-trip does hold. -/
theorem store_word_end_fault :
    Mem.storeWord zeroMem 4093 0xAABBCCDD = none ∧
      wordView (Mem.storeWord zeroMem 100 0xAABBCCDD) 100 = some 0xAABBCCDD :=
  ⟨rfl, by decide⟩

/-- Claim C3. Refuting evaluation: in the OP dispatch table the keys of
slt and sltu are not distinct. The shared key (0x2, 0x00) resolves to
slt (the first arm wins), the canonical sltu key (0x3, 0x00) is a decode
error, and no (funct3, funct7) pair at all resolves to sltu. -/
theorem sltu_unreachable_in_dispatch :
    opDispatch 2 0 = some AluOp.slt ∧ opDispatch 3 0 = none ∧
      sltuReachable = false := by
  decide

/-- Claim C4. Refuting evaluation: executing JAL x1, +16 (word
0x010000EF) fetched at address 0 leaves the program counter at the
default advance 4 (the claim requires 0 + 16) and register x1 at 0 (the
claim requires 0 + 4): the JAL arm of `execute` is a no-op. -/
theorem jal_noop_step :
    pcX1View (Cpu.step (Cpu.fromMem jalMem)) = some (4, 0) := by
  decide

/-- Claim C5. After `inc_pc`, the program counter equals
(previous + 4) mod 4096: the wrapping 32-bit increment followed by the
modulo with the memory capacity reduces to a single modulo, since 4096
divides 2^32. -/
theorem inc_pc_wraps_mod_capacity (c : Cpu) :
    (c.incPc).pc = (c.pc + 4) % 4096 := by
  simp only [Cpu.incPc, Mem.len, MEM_LEN, XMOD]
  omega

/-- Claim C6. Refuting evaluation: `sll` does not mask the shift amount.
With x1 = 1 and x2 = 32 (via ADDI), SLL x3, x1, x2 (0x002091B3) faults
on the overflowing `<<` instead of shifting by 32 mod 32 = 0; with
x2 = 3 the same instruction works and yields 1 shifted by 3. -/
theorem sll_overflow_fault :
    exec3 zeroCpu 0x00100093 0x02000113 0x002091B3 = none ∧
      regView (exec3 zeroCpu 0x00100093 0x00300113 0x002091B3) 3 = some 8 :=
  ⟨rfl, by decide⟩

/-- Claim C7. For machine-word register values, `add` stores
(a + b) mod 2^32 and `sub` stores the value congruent to a - b
modulo 2^32; both are total functions, so no fault is raised on
overflow. -/
theorem add_sub_wraparound (c : Cpu) (rd rs1 rs2 : Nat)
    (h1 : c.registers rs1 < XMOD) (h2 : c.registers rs2 < XMOD) :
    (c.add rd rs1 rs2).registers rd
        = (c.registers rs1 + c.registers rs2) % 2 ^ 32 ∧
      ((c.sub rd rs1 rs2).registers rd : Int)
        = ((c.registers rs1 : Int) - (c.registers rs2 : Int)) % 2 ^ 32 := by
  constructor
  · simp [Cpu.add, Cpu.setReg, wadd, XMOD]
  · simp [Cpu.sub, Cpu.setReg, wsub, XMOD, Nat.mod_eq_of_lt h2]
    omega

/-- Witness for C7 at x1 = 5, x2 = 7. -/
theorem add_sub_wraparound_witness :
    (demoCpu.add 3 1 2).registers 3
        = (demoCpu.registers 1 + demoCpu.registers 2) % 2 ^ 32 ∧
      ((demoCpu.sub 3 1 2).registers 3 : Int)
        = ((demoCpu.registers 1 : Int) - (demoCpu.registers 2 : Int)) % 2 ^ 32 :=
  add_sub_wraparound demoCpu 3 1 2 (by decide) (by decide)

/-- Claim C8. `from_buf` of an input of length at most 4096 yields a
memory whose first length-many bytes are the input verbatim and whose
remaining bytes are zero; an input longer than 4096 bytes makes it fail
(the slice copy panics) rather than produce an undefined memory. -/
theorem from_buf_bytes (buf : List Nat) (i : Nat) (h : i < 4096) :
    byteView (Mem.fromBuf buf) i =
      if buf.length ≤ 4096 then
        some (if i < buf.length then buf.getD i 0 else 0)
      else none := by
  simp only [byteView, Mem.fromBuf, Mem.loadByte, MEM_LEN]
  rcases le_or_lt buf.length 4096 with hb | hb
  · rw [if_pos hb, if_pos hb, Option.map_some', Nat.mod_eq_of_lt h]
  · rw [if_neg (by omega), if_neg (by omega), Option.map_none']

/-- Witness for C8: an in-range image ([5, 6, 7], byte 1) and an
oversized image (4097 ones, byte 0). -/
theorem from_buf_bytes_witness :
    (byteView (Mem.fromBuf [5, 6, 7]) 1 =
        if List.length [5, 6, 7] ≤ 4096 then
          some (if 1 < List.length [5, 6, 7] then List.getD [5, 6, 7] 1 0 else 0)
        else none) ∧
      (byteView (Mem.fromBuf (List.replicate 4097 1)) 0 =
        if List.length (List.replicate 4097 1) ≤ 4096 then
          some (if 0 < List.length (List.replicate 4097 1) then
                  List.getD (List.replicate 4097 1) 0 0
                else 0)
        else none) :=
  ⟨from_buf_bytes [5, 6, 7] 1 (by decide),
   from_buf_bytes (List.replicate 4097 1) 0 (by decide)⟩

/-- Claim C9. In every state the run loop can reach from an initial
state, the program counter is a multiple of 4 (it starts at 0 and each
step adds 4 modulo 2^32 and modulo 4096, all multiples of 4), so the
alignment-fault branch of `fetch` is never taken: `fetch` returns the
word at the program counter. -/
theorem reach_pc_aligned_fetch_ok (c : Cpu) (h : Reach c) :
    c.pc % 4 = 0 ∧ c.fetch = some (c.mem.loadWord c.pc) := by
  have hpc : c.pc % 4 = 0 := by
    induction h with
    | init m => rfl
    | step hr hs ih =>
        rw [step_pc hs]
        unfold XMOD MEM_LEN
        omega
  refine ⟨hpc, ?_⟩
  rw [Cpu.fetch, if_pos]
  exact hpc

/-- Witness for C9 at the initial state over the all-zero memory. -/
theorem reach_pc_aligned_fetch_ok_witness :
    (Cpu.fromMem zeroMem).pc % 4 = 0 ∧
      (Cpu.fromMem zeroMem).fetch
        = some ((Cpu.fromMem zeroMem).mem.loadWord (Cpu.fromMem zeroMem).pc) :=
  reach_pc_aligned_fetch_ok (Cpu.fromMem zeroMem) (Reach.init zeroMem)

/-- Claim C10. Executing any OP (R-type) or OP-IMM (I-type) ALU
instruction modifies at most the destination register: every register
with a different index keeps its value, and memory is unchanged
(vacuously so when the instruction faults). -/
theorem alu_frame_property (c : Cpu) (instr i : Nat)
    (hop : opcodeOf instr = OPCODE_OP ∨ opcodeOf instr = OPCODE_OP_IMM)
    (hi : i ≠ rdOf instr) :
    regUnchanged c instr i ∧ memUnchanged c instr := by
  have key : ∀ c2, c.execute instr = some c2 →
      c2.registers i = c.registers i ∧ c2.mem = c.mem := by
    intro c2 hex
    rcases hop with hop | hop
    · rw [execute_op_eq hop, Option.bind_eq_some] at hex
      obtain ⟨op, _, h2⟩ := hex
      exact applyAlu_frame hi h2
    · rw [execute_opimm_eq hop] at hex
      exact execOpImm_frame hi hex
  cases hex : c.execute instr with
  | none => exact ⟨by simp [regUnchanged, hex], by simp [memUnchanged, hex]⟩
  | some c2 =>
      obtain ⟨h1, h2⟩ := key c2 hex
      exact ⟨by simp [regUnchanged, hex, h1], by simp [memUnchanged, hex, h2]⟩

/-- Witness for C10: ADD x3, x1, x2 (0x002081B3) from the demo state
leaves register 1 and the memory unchanged. -/
theorem alu_frame_property_witness :
    regUnchanged demoCpu 0x002081B3 1 ∧ memUnchanged demoCpu 0x002081B3 :=
  alu_frame_property demoCpu 0x002081B3 1 (Or.inl (by decide)) (by decide)
